import Mathlib

/-!
Verification of the in-memory menu catalog of a React Native app.

The core under study is the item store held by the root component
(state `menuItems`, mutators `addMenuItem` / `deleteMenuItem`) and the
pure view functions of the two screens
(`calculateAveragePrice`, `getUniqueCourses`, `calculateCourseStats`
from HomeScreen; `filterMenuItems`, `countItemsInCourse` from
FilterScreen).  Each definition below is a direct shallow embedding of
the corresponding TypeScript function: JS arrays become `List`, the
imperative loops become `List.foldl` with the same accumulator, JS
string comparison `===` becomes `==` on `String`, prices become `ℚ`,
the optional image field becomes `Option String`, and the id produced
by `Date.now().toString()` becomes `toString` of an externally
supplied `now : ℕ` (the clock is an input of the model).
-/

namespace ChefApp

/-- The MenuItem interface of the app: id, name, description, course,
price (in Rand), and an optional image URL. -/
structure MenuItem where
  id : String
  name : String
  description : String
  course : String
  price : ℚ
  image : Option String
deriving DecidableEq

/-- A derived per-course statistic as built by `calculateCourseStats`:
course label, item count and average price. -/
structure CourseStat where
  course : String
  count : ℕ
  average : ℚ
deriving DecidableEq

/-- First seed dish of INITIAL_DISHES. -/
def fullEnglish : MenuItem :=
  ⟨"2", "Full English Breakfast",
   "Classic Full English breakfast with eggs, bacon, sausages, and beans",
   "Breakfast", 85, some "https://plus.unsplash.com/premium_photo-1663840225558-03ac41c68873?w=800&auto=format&fit=crop&q=60"⟩

/-- Second seed dish of INITIAL_DISHES. -/
def caesarSalad : MenuItem :=
  ⟨"1", "Caesar Salad",
   "Fresh romaine lettuce with parmesan, croutons and Caesar dressing",
   "Lunch", 75, some "https://images.unsplash.com/photo-1670237735381-ac5c7fa72c51?w=800&auto=format&fit=crop&q=60"⟩

/-- Third seed dish of INITIAL_DISHES. -/
def beefSteak : MenuItem :=
  ⟨"3", "Beef Steak",
   "Prime ribeye steak with garlic butter and roasted vegetables",
   "Dinner", 225, some "https://images.unsplash.com/photo-1608877907149-a206d75ba011?w=800&auto=format&fit=crop&q=60"⟩

/-- The INITIAL_DISHES sample data seeding the catalog. -/
def INITIAL_DISHES : List MenuItem := [fullEnglish, caesarSalad, beefSteak]

/-- The item object built inside `addMenuItem`: its id is
`Date.now().toString()`, modelled as `toString now` for the clock
reading `now` at the moment of the call. -/
def newMenuItem (name descr course : String) (price : ℚ)
    (imageUrl : Option String) (now : ℕ) : MenuItem :=
  ⟨toString now, name, descr, course, price, imageUrl⟩

/-- The `addMenuItem` handler of the root component: builds the new
item and replaces the state with `[...menuItems, newItem]`, i.e. the
old list with the new item appended at the end.  The result is the new
state. -/
def addMenuItem (menuItems : List MenuItem) (name descr course : String)
    (price : ℚ) (imageUrl : Option String) (now : ℕ) : List MenuItem :=
  menuItems ++ [newMenuItem name descr course price imageUrl now]

/-- The `deleteMenuItem` handler of the root component: replaces the
state with `menuItems.filter(item => item.id !== id)`.  The body of
the TypeScript arrow function is a statement, so the call itself
evaluates to `undefined` no matter what the input is; that return
value is modelled as the `Unit` second component.  The first component
is the new state. -/
def deleteMenuItem (menuItems : List MenuItem) (targetId : String) :
    List MenuItem × Unit :=
  (menuItems.filter (fun item => item.id != targetId), ())

/-- HomeScreen `calculateAveragePrice`: a single FOR loop accumulating
`total` and `count` over the items whose course matches, then
`count > 0 ? total / count : 0`. -/
def calculateAveragePrice (items : List MenuItem) (course : String) : ℚ :=
  let acc := items.foldl
    (fun (tc : ℚ × ℕ) item =>
      if item.course == course then (tc.1 + item.price, tc.2 + 1) else tc)
    ((0 : ℚ), (0 : ℕ))
  if 0 < acc.2 then acc.1 / (acc.2 : ℚ) else 0

/-- The `coursesSet.add` step of `getUniqueCourses`: a JS `Set` keeps
insertion order and ignores an element already present. -/
def setAdd (coursesSet : List String) (course : String) : List String :=
  if course ∈ coursesSet then coursesSet else coursesSet ++ [course]

/-- HomeScreen `getUniqueCourses`: a FOR...IN loop over the array
indices in ascending order, adding every course to a `Set`, then
`Array.from` of that set (insertion order preserved). -/
def getUniqueCourses (items : List MenuItem) : List String :=
  items.foldl (fun coursesSet item => setAdd coursesSet item.course) []

/-- HomeScreen `calculateCourseStats`: a WHILE loop over
`getUniqueCourses items`, pushing for each course a record with the
count obtained by `items.filter(...).length` and the average obtained
by `calculateAveragePrice`. -/
def calculateCourseStats (items : List MenuItem) : List CourseStat :=
  (getUniqueCourses items).map (fun course =>
    ⟨course,
     (items.filter (fun item => item.course == course)).length,
     calculateAveragePrice items course⟩)

/-- FilterScreen `filterMenuItems`: returns the whole array when the
selector is the sentinel string All; otherwise a FOR loop pushing the
matching items into a fresh array. -/
def filterMenuItems (items : List MenuItem) (selectedCourse : String) :
    List MenuItem :=
  if selectedCourse == "All" then items
  else items.foldl
    (fun filteredItems item =>
      if item.course == selectedCourse then filteredItems ++ [item]
      else filteredItems)
    []

/-- FilterScreen `countItemsInCourse`: a WHILE loop incrementing a
counter on every item whose course matches. -/
def countItemsInCourse (items : List MenuItem) (course : String) : ℕ :=
  items.foldl
    (fun count item => if item.course == course then count + 1 else count) 0

/-! ## Specification-side definitions

These formalise the words of the specification and are compared with
the embedded code above. -/

/-- The sublist of items whose course equals the given one, in their
stored order. -/
def matchingItems (items : List MenuItem) (course : String) : List MenuItem :=
  items.filter (fun item => item.course == course)

/-- The arithmetic mean of `price` over the items of the given course
(spec-side definition of the average). -/
def meanPrice (items : List MenuItem) (course : String) : ℚ :=
  ((matchingItems items course).map (fun item => item.price)).sum /
    ((matchingItems items course).length : ℚ)

/-- Worker for `dedupFirst`: drops every element already seen, keeps
the first occurrence of each new element in scan order. -/
def dedupFirstAux (seen : List String) : List String → List String
  | [] => []
  | c :: cs =>
    if c ∈ seen then dedupFirstAux seen cs
    else c :: dedupFirstAux (c :: seen) cs

/-- Spec-side discovery order: the distinct values of a list, each
listed once, in the order of their first occurrence. -/
def dedupFirst (l : List String) : List String := dedupFirstAux [] l

/-- Concrete pair of Lunch items at prices 75 and 125, the example of
the averagePrice test property. -/
def lunchPair : List MenuItem :=
  [⟨"10", "Quiche", "Savoury tart", "Lunch", 75, none⟩,
   ⟨"11", "Burger", "Beef burger", "Lunch", 125, none⟩]

/-- Concrete list with a duplicated course, the example of the
uniqueCourses test property. -/
def coursesDemo : List MenuItem :=
  [⟨"20", "Omelette", "Three egg omelette", "Breakfast", 40, none⟩,
   ⟨"21", "Wrap", "Chicken wrap", "Lunch", 55, none⟩,
   ⟨"22", "Porridge", "Oat porridge", "Breakfast", 30, none⟩]

/-- Concrete list in which one item carries the literal course value
All, exercising the sentinel collision. -/
def allCourseDemo : List MenuItem :=
  [⟨"30", "Tasting Menu", "Served any time of day", "All", 300, none⟩,
   ⟨"31", "Greek Salad", "Feta and olives", "Lunch", 65, none⟩]

/-! ## Helper lemmas relating the loop embeddings to list primitives -/

/-- Matching sublist of a cons, matching head. -/
lemma matchingItems_cons_pos {a : MenuItem} {l : List MenuItem}
    {course : String} (h : a.course = course) :
    matchingItems (a :: l) course = a :: matchingItems l course := by
  simp [matchingItems, List.filter_cons, h]

/-- Matching sublist of a cons, non-matching head. -/
lemma matchingItems_cons_neg {a : MenuItem} {l : List MenuItem}
    {course : String} (h : a.course ≠ course) :
    matchingItems (a :: l) course = matchingItems l course := by
  have hb : (a.course == course) = false := by simpa using h
  simp [matchingItems, List.filter_cons, hb]

/-- The FOR loop of `calculateAveragePrice` computes the sum and the
number of the matching prices, shifted by the initial accumulator. -/
lemma avg_foldl (course : String) (l : List MenuItem) : ∀ (t : ℚ) (n : ℕ),
    l.foldl
      (fun (tc : ℚ × ℕ) item =>
        if item.course == course then (tc.1 + item.price, tc.2 + 1) else tc)
      (t, n)
      = (t + ((matchingItems l course).map (fun item => item.price)).sum,
         n + (matchingItems l course).length) := by
  induction l with
  | nil => intro t n; simp [matchingItems]
  | cons a l ih =>
    intro t n
    rw [List.foldl_cons]
    by_cases h : a.course = course
    · rw [if_pos (by simpa using h), ih, matchingItems_cons_pos h]
      simp only [List.map_cons, List.sum_cons, List.length_cons,
        Prod.mk.injEq]
      exact ⟨by ring, by omega⟩
    · rw [if_neg (by simpa using h), ih, matchingItems_cons_neg h]

/-- The FOR loop of `filterMenuItems` appends the matching items, in
order, to the accumulator array. -/
lemma filter_foldl (sel : String) (l : List MenuItem) :
    ∀ acc : List MenuItem,
    l.foldl
      (fun filteredItems item =>
        if item.course == sel then filteredItems ++ [item] else filteredItems)
      acc
      = acc ++ matchingItems l sel := by
  induction l with
  | nil => intro acc; simp [matchingItems]
  | cons a l ih =>
    intro acc
    rw [List.foldl_cons]
    by_cases h : a.course = sel
    · rw [if_pos (by simpa using h), ih, matchingItems_cons_pos h,
        List.append_assoc, List.singleton_append]
    · rw [if_neg (by simpa using h), ih, matchingItems_cons_neg h]

/-- The WHILE loop of `countItemsInCourse` counts the matching items,
shifted by the initial counter. -/
lemma count_foldl (course : String) (l : List MenuItem) : ∀ n : ℕ,
    l.foldl
      (fun count item => if item.course == course then count + 1 else count) n
      = n + (matchingItems l course).length := by
  induction l with
  | nil => intro n; simp [matchingItems]
  | cons a l ih =>
    intro n
    rw [List.foldl_cons]
    by_cases h : a.course = course
    · rw [if_pos (by simpa using h), ih, matchingItems_cons_pos h,
        List.length_cons]
      omega
    · rw [if_neg (by simpa using h), ih, matchingItems_cons_neg h]

/-- `dedupFirstAux` only looks at membership in the seen list. -/
lemma dedupFirstAux_congr : ∀ (l s₁ s₂ : List String),
    (∀ c, c ∈ s₁ ↔ c ∈ s₂) → dedupFirstAux s₁ l = dedupFirstAux s₂ l := by
  intro l
  induction l with
  | nil => intro s₁ s₂ _; rfl
  | cons c cs ih =>
    intro s₁ s₂ hs
    by_cases hc : c ∈ s₁
    · rw [dedupFirstAux, dedupFirstAux, if_pos hc, if_pos ((hs c).mp hc)]
      exact ih s₁ s₂ hs
    · rw [dedupFirstAux, dedupFirstAux, if_neg hc,
        if_neg (fun hmem => hc ((hs c).mpr hmem))]
      rw [ih (c :: s₁) (c :: s₂) (fun x => by simp [List.mem_cons, hs x])]

/-- The fold of `setAdd` over a list extends the accumulator with the
first occurrences of the values not yet present. -/
lemma foldl_setAdd : ∀ (l acc : List String),
    l.foldl setAdd acc = acc ++ dedupFirstAux acc l := by
  intro l
  induction l with
  | nil => intro acc; simp [dedupFirstAux]
  | cons c cs ih =>
    intro acc
    rw [List.foldl_cons]
    by_cases hc : c ∈ acc
    · rw [setAdd, if_pos hc, ih, dedupFirstAux, if_pos hc]
    · rw [setAdd, if_neg hc, ih (acc ++ [c]),
        dedupFirstAux_congr cs (acc ++ [c]) (c :: acc)
          (fun x => by simp [List.mem_append, List.mem_cons, or_comm]),
        dedupFirstAux, if_neg hc]
      simp

/-- `getUniqueCourses` lists the distinct courses in discovery order. -/
lemma getUniqueCourses_eq (items : List MenuItem) :
    getUniqueCourses items
      = dedupFirst (items.map (fun item => item.course)) := by
  unfold getUniqueCourses dedupFirst
  rw [← List.foldl_map (fun item : MenuItem => item.course) setAdd,
    foldl_setAdd, List.nil_append]

/-- Membership in `dedupFirstAux`. -/
lemma mem_dedupFirstAux : ∀ (l seen : List String) (a : String),
    a ∈ dedupFirstAux seen l ↔ a ∈ l ∧ a ∉ seen := by
  intro l
  induction l with
  | nil => intro seen a; simp [dedupFirstAux]
  | cons c cs ih =>
    intro seen a
    by_cases hc : c ∈ seen
    · rw [dedupFirstAux, if_pos hc, ih]
      constructor
      · rintro ⟨h1, h2⟩; exact ⟨List.mem_cons_of_mem c h1, h2⟩
      · rintro ⟨h1, h2⟩
        rcases List.mem_cons.mp h1 with rfl | h1
        · exact absurd hc h2
        · exact ⟨h1, h2⟩
    · rw [dedupFirstAux, if_neg hc]
      rw [List.mem_cons, List.mem_cons, ih (c :: seen) a]
      constructor
      · rintro (rfl | ⟨h1, h2⟩)
        · exact ⟨Or.inl rfl, hc⟩
        · exact ⟨Or.inr h1, fun hmem => h2 (List.mem_cons_of_mem c hmem)⟩
      · rintro ⟨h1, h2⟩
        by_cases hac : a = c
        · exact Or.inl hac
        · rcases h1 with rfl | h1
          · exact Or.inl rfl
          · exact Or.inr ⟨h1,
              fun hmem => (List.mem_cons.mp hmem).elim hac h2⟩

/-- The result of `dedupFirstAux` has no duplicates. -/
lemma nodup_dedupFirstAux : ∀ (l seen : List String),
    (dedupFirstAux seen l).Nodup := by
  intro l
  induction l with
  | nil => intro seen; simp [dedupFirstAux]
  | cons c cs ih =>
    intro seen
    by_cases hc : c ∈ seen
    · rw [dedupFirstAux, if_pos hc]; exact ih seen
    · rw [dedupFirstAux, if_neg hc]
      rw [List.nodup_cons]
      refine ⟨fun hmem => ?_, ih (c :: seen)⟩
      exact ((mem_dedupFirstAux cs (c :: seen) c).mp hmem).2
        (List.mem_cons_self c seen)

/-- Filtering twice with the same predicate equals filtering once. -/
lemma filter_self_filter (p : MenuItem → Bool) :
    ∀ l : List MenuItem, (l.filter p).filter p = l.filter p := by
  intro l
  induction l with
  | nil => rfl
  | cons a l ih =>
    by_cases h : p a = true
    · simp [List.filter_cons, h, ih]
    · simp [List.filter_cons, h, ih]

/-- `calculateAveragePrice` equals the spec-side mean on a nonempty
matching set, and zero on an empty one. -/
lemma calculateAveragePrice_eq (items : List MenuItem) (course : String) :
    calculateAveragePrice items course
      = if matchingItems items course = [] then 0
        else meanPrice items course := by
  unfold calculateAveragePrice
  rw [avg_foldl]
  by_cases h : matchingItems items course = []
  · simp [h]
  · have hl : 0 < (matchingItems items course).length :=
      List.length_pos.mpr h
    rw [if_neg h]
    simp only [zero_add]
    rw [if_pos hl]
    rfl

/-- `countItemsInCourse` equals the number of matching items. -/
lemma countItemsInCourse_eq (items : List MenuItem) (course : String) :
    countItemsInCourse items course = (matchingItems items course).length := by
  unfold countItemsInCourse
  rw [count_foldl]
  simp

/-- `filterMenuItems` with a non-sentinel selector equals the matching
sublist. -/
lemma filterMenuItems_ne_all (items : List MenuItem) (sel : String)
    (h : sel ≠ "All") :
    filterMenuItems items sel = matchingItems items sel := by
  unfold filterMenuItems
  rw [if_neg (by simpa using h), filter_foldl, List.nil_append]

/-- Every item surviving a delete has an id different from the target. -/
lemma delete_mem_ne (items : List MenuItem) (targetId : String) :
    ∀ item ∈ (deleteMenuItem items targetId).1, item.id ≠ targetId := by
  intro item hmem
  have := (List.mem_filter.mp hmem).2
  simpa using this

/-- Every item whose id differs from the target survives a delete. -/
lemma delete_mem_of_ne (items : List MenuItem) (targetId : String) :
    ∀ item ∈ items, item.id ≠ targetId →
      item ∈ (deleteMenuItem items targetId).1 := by
  intro item hmem hne
  exact List.mem_filter.mpr ⟨hmem, by simpa using hne⟩

/-- Deleting an id that no item carries leaves the catalog unchanged. -/
lemma delete_noop (items : List MenuItem) (targetId : String)
    (h : ∀ item ∈ items, item.id ≠ targetId) :
    (deleteMenuItem items targetId).1 = items := by
  unfold deleteMenuItem
  refine List.filter_eq_self.mpr ?_
  intro a ha
  simpa using h a ha

/-! ## The claims -/

/-- C1: the claim states that every id returned by create is distinct
from every id previously issued, including ids of immediately
sequential create calls.  The code derives the id from
`Date.now().toString()`; two create calls within the same millisecond
read the same clock value and therefore receive the same id, so the
store CAN issue duplicate ids.  This theorem evaluates the code at the
failing input: two creates on an initially empty catalog, both with
clock reading 7, yield a catalog whose id column is `["7", "7"]` — a
duplicate, contradicting the claim and the comment in the source that
the generated id is unique. -/
theorem C1_id_collision :
    ((addMenuItem (addMenuItem [] "Pancakes" "Buttermilk stack" "Breakfast"
        50 none 7) "Waffles" "Belgian waffles" "Breakfast" 60 none 7).map
      (fun item => item.id)) = ["7", "7"] ∧
    ¬ ((addMenuItem (addMenuItem [] "Pancakes" "Buttermilk stack" "Breakfast"
        50 none 7) "Waffles" "Belgian waffles" "Breakfast" 60 none 7).map
      (fun item => item.id)).Nodup := by
  constructor
  · decide
  · decide

/-- C2 counterexample: the claim states that delete returns a boolean
telling whether an item was removed.  The TypeScript handler is a
statement-bodied arrow function: it evaluates to `undefined` (here
`Unit`) on every input, so no reading of the returned value can tell a
successful removal ("1" is a present id in the seed catalog) from a
not-found delete ("0" is absent).  Formally: no function of the
returned value yields the removal indicator the claim requires. -/
theorem C2_counterexample :
    ¬ ∃ f : Unit → Bool, ∀ (items : List MenuItem) (targetId : String),
        f (deleteMenuItem items targetId).2
          = decide (∃ item ∈ items, item.id = targetId) := by
  rintro ⟨f, hf⟩
  have h1 : f () = decide (∃ item ∈ INITIAL_DISHES, item.id = "1") :=
    hf INITIAL_DISHES "1"
  have h2 : f () = decide (∃ item ∈ INITIAL_DISHES, item.id = "0") :=
    hf INITIAL_DISHES "0"
  have hb := h1.symm.trans h2
  revert hb
  decide

/-- C2 amended: delete removes the item whose id matches when one is
present and is a no-op on the catalog when none matches; it never
faults (it is a total function); but it returns no removal indicator —
its result is the unit value on every input, and whether an item was
removed is observable only through the catalog state. -/
theorem C2_delete_semantics (items : List MenuItem) (targetId : String) :
    (∀ item ∈ (deleteMenuItem items targetId).1, item.id ≠ targetId) ∧
    (∀ item ∈ items, item.id ≠ targetId →
      item ∈ (deleteMenuItem items targetId).1) ∧
    ((∀ item ∈ items, item.id ≠ targetId) →
      (deleteMenuItem items targetId).1 = items) ∧
    (deleteMenuItem items targetId).2 = () :=
  ⟨delete_mem_ne items targetId, delete_mem_of_ne items targetId,
   delete_noop items targetId, rfl⟩

/-- C2 witness: deleting the absent id "9" from the seed catalog keeps
it unchanged, and the item with the distinct id "1" survives deleting
id "2". -/
theorem C2_delete_semantics_witness :
    caesarSalad ∈ (deleteMenuItem INITIAL_DISHES "2").1 ∧
    (deleteMenuItem INITIAL_DISHES "9").1 = INITIAL_DISHES :=
  ⟨(C2_delete_semantics INITIAL_DISHES "2").2.1 caesarSalad (by decide)
      (by decide),
   (C2_delete_semantics INITIAL_DISHES "9").2.2.1 (by decide)⟩

/-- C3: averagePrice is the arithmetic mean of price over the items of
the given course when at least one matches, and exactly 0 when none
matches; on the two Lunch items at 75 and 125 it is 100. -/
theorem C3_averagePrice (items : List MenuItem) (course : String) :
    (matchingItems items course ≠ [] →
      calculateAveragePrice items course = meanPrice items course) ∧
    (matchingItems items course = [] →
      calculateAveragePrice items course = 0) ∧
    calculateAveragePrice lunchPair "Lunch" = 100 := by
  refine ⟨?_, ?_, ?_⟩
  · intro h
    rw [calculateAveragePrice_eq, if_neg h]
  · intro h
    rw [calculateAveragePrice_eq, if_pos h]
  · have hm : matchingItems lunchPair "Lunch" = lunchPair := rfl
    rw [calculateAveragePrice_eq, if_neg (by rw [hm]; simp [lunchPair])]
    unfold meanPrice
    rw [hm]
    norm_num [lunchPair]

/-- C3 witness: on the two-item Lunch list the average equals the
spec-side mean, and on the empty list it is 0. -/
theorem C3_averagePrice_witness :
    calculateAveragePrice lunchPair "Lunch" = meanPrice lunchPair "Lunch" ∧
    calculateAveragePrice ([] : List MenuItem) "Lunch" = 0 :=
  ⟨(C3_averagePrice lunchPair "Lunch").1 (by decide),
   (C3_averagePrice [] "Lunch").2.1 rfl⟩

/-- C4: create appends the new item at the end, keeping every previous
item before it in its prior order, and delete removes exactly the
items carrying the target id while the surviving items form a sublist
of the original (their relative order is preserved). -/
theorem C4_create_append_delete_filters (items : List MenuItem)
    (nm d c : String) (p : ℚ) (img : Option String) (now : ℕ)
    (targetId : String) :
    addMenuItem items nm d c p img now
        = items ++ [newMenuItem nm d c p img now] ∧
    (addMenuItem items nm d c p img now).getLast?
        = some (newMenuItem nm d c p img now) ∧
    (∀ item ∈ (deleteMenuItem items targetId).1, item.id ≠ targetId) ∧
    List.Sublist (deleteMenuItem items targetId).1 items ∧
    (∀ item ∈ items, item.id ≠ targetId →
      item ∈ (deleteMenuItem items targetId).1) := by
  refine ⟨rfl, ?_, delete_mem_ne items targetId, ?_,
    delete_mem_of_ne items targetId⟩
  · unfold addMenuItem
    exact List.getLast?_concat items
  · unfold deleteMenuItem
    exact List.filter_sublist items

/-- C4 witness: in the seed catalog, deleting id "1" keeps the item
with id "2", whose id indeed differs from "1". -/
theorem C4_witness :
    fullEnglish ∈ (deleteMenuItem INITIAL_DISHES "1").1 :=
  (C4_create_append_delete_filters INITIAL_DISHES "n" "d" "c" 0 none 0
    "1").2.2.2.2 fullEnglish (by decide) (by decide)

/-- C5 counterexample: the claim states that deleting a present id
twice yields the results "removed" then "not found".  The id "1" is
present in the seed catalog, yet the value returned by the first call
equals the value returned by the second (both are the unit value,
since the handler returns nothing), so the two calls cannot yield the
two distinct results the claim requires. -/
theorem C5_counterexample :
    "1" ∈ INITIAL_DISHES.map (fun item => item.id) ∧
    (deleteMenuItem INITIAL_DISHES "1").2
      = (deleteMenuItem (deleteMenuItem INITIAL_DISHES "1").1 "1").2 :=
  ⟨by decide, rfl⟩

/-- C5 amended: delete is idempotent on the catalog state — for every
catalog and id, deleting the same id twice yields the same catalog as
deleting it once — and the two calls return the same (unit) value
rather than distinguishable removed/not-found results. -/
theorem C5_delete_idempotent (items : List MenuItem) (targetId : String) :
    (deleteMenuItem (deleteMenuItem items targetId).1 targetId).1
        = (deleteMenuItem items targetId).1 ∧
    (deleteMenuItem (deleteMenuItem items targetId).1 targetId).2
        = (deleteMenuItem items targetId).2 := by
  refine ⟨?_, rfl⟩
  unfold deleteMenuItem
  exact filter_self_filter _ items

/-- C6: with the sentinel selector All the filter returns every item
in order; with any other selector it returns exactly the items of that
course in their relative order; with no match it returns the empty
list; on the seed catalog the Dinner selection is exactly the one
Dinner item. -/
theorem C6_filterByCourse (items : List MenuItem) (sel : String) :
    filterMenuItems items "All" = items ∧
    (sel ≠ "All" → filterMenuItems items sel = matchingItems items sel) ∧
    (sel ≠ "All" → (∀ item ∈ items, item.course ≠ sel) →
      filterMenuItems items sel = []) ∧
    filterMenuItems INITIAL_DISHES "Dinner" = [beefSteak] := by
  refine ⟨rfl, fun h => filterMenuItems_ne_all items sel h, ?_, rfl⟩
  intro h hnone
  rw [filterMenuItems_ne_all items sel h]
  unfold matchingItems
  refine List.filter_eq_nil_iff.mpr ?_
  intro a ha
  simpa using hnone a ha

/-- C6 witness: on the seed catalog the Dinner selection equals the
matching sublist, and a selection with no matching item is empty. -/
theorem C6_filterByCourse_witness :
    filterMenuItems INITIAL_DISHES "Dinner"
        = matchingItems INITIAL_DISHES "Dinner" ∧
    filterMenuItems lunchPair "Dinner" = [] :=
  ⟨(C6_filterByCourse INITIAL_DISHES "Dinner").2.1 (by decide),
   (C6_filterByCourse lunchPair "Dinner").2.2.1 (by decide) (by decide)⟩

/-- C7: courseStats has exactly one entry per distinct course present,
in discovery order (`dedupFirst` of the scanned course column), with
the count of that course and the arithmetic mean of its prices; on the
seed catalog it is Breakfast, Lunch, Dinner with count 1 each and the
single item price as average. -/
theorem C7_courseStats (items : List MenuItem) :
    calculateCourseStats items
        = (dedupFirst (items.map (fun item => item.course))).map
            (fun c => ⟨c, (matchingItems items c).length, meanPrice items c⟩) ∧
    (dedupFirst (items.map (fun item => item.course))).Nodup ∧
    (∀ c, c ∈ dedupFirst (items.map (fun item => item.course))
        ↔ c ∈ items.map (fun item => item.course)) ∧
    calculateCourseStats INITIAL_DISHES
        = [⟨"Breakfast", 1, 85⟩, ⟨"Lunch", 1, 75⟩, ⟨"Dinner", 1, 225⟩] := by
  refine ⟨?_, nodup_dedupFirstAux _ _, ?_, ?_⟩
  · unfold calculateCourseStats
    rw [getUniqueCourses_eq]
    refine List.map_congr_left ?_
    intro c hc
    have hmem : c ∈ items.map (fun item => item.course) :=
      ((mem_dedupFirstAux _ _ _).mp hc).1
    have hne : matchingItems items c ≠ [] := by
      obtain ⟨item, hitem, hcourse⟩ := List.mem_map.mp hmem
      intro hnil
      have hin : item ∈ matchingItems items c :=
        List.mem_filter.mpr ⟨hitem, by simp [hcourse]⟩
      rw [hnil] at hin
      exact List.not_mem_nil item hin
    have havg := calculateAveragePrice_eq items c
    rw [if_neg hne] at havg
    rw [havg]
    rfl
  · intro c
    unfold dedupFirst
    rw [mem_dedupFirstAux]
    simp
  · have hu : getUniqueCourses INITIAL_DISHES
        = ["Breakfast", "Lunch", "Dinner"] := rfl
    have hmb : matchingItems INITIAL_DISHES "Breakfast" = [fullEnglish] := rfl
    have hml : matchingItems INITIAL_DISHES "Lunch" = [caesarSalad] := rfl
    have hmd : matchingItems INITIAL_DISHES "Dinner" = [beefSteak] := rfl
    have hb : calculateAveragePrice INITIAL_DISHES "Breakfast" = 85 := by
      rw [calculateAveragePrice_eq, if_neg (by rw [hmb]; simp)]
      unfold meanPrice
      rw [hmb]
      norm_num [fullEnglish]
    have hl : calculateAveragePrice INITIAL_DISHES "Lunch" = 75 := by
      rw [calculateAveragePrice_eq, if_neg (by rw [hml]; simp)]
      unfold meanPrice
      rw [hml]
      norm_num [caesarSalad]
    have hd : calculateAveragePrice INITIAL_DISHES "Dinner" = 225 := by
      rw [calculateAveragePrice_eq, if_neg (by rw [hmd]; simp)]
      unfold meanPrice
      rw [hmd]
      norm_num [beefSteak]
    unfold calculateCourseStats
    rw [hu]
    simp only [List.map_cons, List.map_nil, hb, hl, hd]
    rfl

/-- C8: uniqueCourses is duplicate-free, contains a course exactly
when some item carries it, and on the Breakfast, Lunch, Breakfast
example it is the two-element list Breakfast, Lunch. -/
theorem C8_uniqueCourses (items : List MenuItem) :
    (getUniqueCourses items).Nodup ∧
    (∀ c, c ∈ getUniqueCourses items
        ↔ c ∈ items.map (fun item => item.course)) ∧
    getUniqueCourses coursesDemo = ["Breakfast", "Lunch"] := by
  refine ⟨?_, ?_, rfl⟩
  · rw [getUniqueCourses_eq]
    exact nodup_dedupFirstAux _ _
  · intro c
    rw [getUniqueCourses_eq]
    unfold dedupFirst
    rw [mem_dedupFirstAux]
    simp

/-- C9: countInCourse counts exactly the items of the given course, is
0 on the empty catalog and when nothing matches; after creating the
Lunch item Soup at 45 on the seed catalog, the Lunch count is 2 and
the Lunch average is 60. -/
theorem C9_countInCourse (items : List MenuItem) (course : String) (now : ℕ) :
    countItemsInCourse items course = (matchingItems items course).length ∧
    countItemsInCourse ([] : List MenuItem) course = 0 ∧
    ((∀ item ∈ items, item.course ≠ course) →
      countItemsInCourse items course = 0) ∧
    countItemsInCourse
      (addMenuItem INITIAL_DISHES "Soup" "Tomato soup" "Lunch" 45 none now)
      "Lunch" = 2 ∧
    calculateAveragePrice
      (addMenuItem INITIAL_DISHES "Soup" "Tomato soup" "Lunch" 45 none now)
      "Lunch" = 60 := by
  refine ⟨countItemsInCourse_eq items course, rfl, ?_, rfl, ?_⟩
  · intro h
    rw [countItemsInCourse_eq]
    have hnil : matchingItems items course = [] := by
      unfold matchingItems
      refine List.filter_eq_nil_iff.mpr ?_
      intro a ha
      simpa using h a ha
    rw [hnil]
    rfl
  · have hm : matchingItems
        (addMenuItem INITIAL_DISHES "Soup" "Tomato soup" "Lunch" 45 none now)
        "Lunch"
        = [caesarSalad,
           newMenuItem "Soup" "Tomato soup" "Lunch" 45 none now] := rfl
    rw [calculateAveragePrice_eq, if_neg (by rw [hm]; simp)]
    unfold meanPrice
    rw [hm]
    norm_num [caesarSalad, newMenuItem]

/-- C9 witness: a catalog with only Lunch items has Dinner count 0. -/
theorem C9_countInCourse_witness :
    countItemsInCourse lunchPair "Dinner" = 0 :=
  (C9_countInCourse lunchPair "Dinner" 0).2.2.1 (by decide)

/-- C10: an item may carry the literal course value All; the sentinel
check takes precedence, so selecting All still returns every item,
while countInCourse counts only the items whose course is literally
All — on a two-item catalog with one such item the filtered list has
length 2 but the count is 1. -/
theorem C10_all_sentinel (items : List MenuItem) :
    filterMenuItems items "All" = items ∧
    countItemsInCourse items "All" = (matchingItems items "All").length ∧
    filterMenuItems allCourseDemo "All" = allCourseDemo ∧
    (filterMenuItems allCourseDemo "All").length = 2 ∧
    countItemsInCourse allCourseDemo "All" = 1 :=
  ⟨rfl, countItemsInCourse_eq items "All", rfl, rfl, rfl⟩

end ChefApp
